import Mathlib

/-!
# go-envoy: the gateway client of `client.go`

A shallow embedding of `client.go`.  The Go functions of the file
(`NewClient`, `NewClientWithHTTP`, `Client.get`, `Client.getJSON`,
`Client.getXML`, `Client.Inventory`, `Client.Production`, `Client.Info`)
become Lean functions of the same names.  The collaborators that the file
only calls (`http.Client.Get`, `io.ReadAll`, `Body.Close`, `json.Unmarshal`,
`xml.Unmarshal`) are parameters, and every call to one of them is recorded in
a trace of events, in the order in which the Go code performs it.
-/

namespace Envoy

/-! ## Values of the Go program -/

/-- Contents of a Go byte slice. -/
abbrev Bytes := List UInt8

/-- A Go slice: `none` is the nil slice, `some xs` a non-nil slice holding `xs`. -/
abbrev GoSlice (α : Type) := Option (List α)

/-- A Go `error` value that is not nil.  `notOK` is the value that the package
allocates once for `ErrNotOK`; every other error value is `other`, told apart
by a description. -/
inductive GoError where
  | notOK
  | other (descr : String)
deriving DecidableEq, Repr

/-- `ErrNotOK = errors.New("server did not return 200")`. -/
def ErrNotOK : GoError := GoError.notOK

/-- `http.StatusOK`. -/
def StatusOK : Int := 200

/-- The zero value of a Go type (what `var x T` holds). -/
class ZeroValue (T : Type) where
  zero : T

/-- The zero value of a slice type is the nil slice. -/
instance (α : Type) : ZeroValue (GoSlice α) := ⟨none⟩

/-! ## Collaborators -/

/-- A response body stream (`io.ReadCloser`): `data` is what its successive
`Read`s deliver, `err` how the stream stops: `none` when it ends with `io.EOF`,
`some e` when a `Read` fails with `e` after `data` was delivered. -/
structure Body where
  data : Bytes
  err : Option GoError
deriving DecidableEq, Repr

/-- An `*http.Response`, as far as `client.go` looks at it. -/
structure Response where
  StatusCode : Int
  Body : Body
deriving DecidableEq, Repr

/-- A non-nil `*http.Client`: `ptr` identifies the pointer, `Get` is what its
method `Get` answers for a URL: an error, or a response. -/
structure HTTPClient where
  ptr : Nat
  Get : String → Except GoError Response

/-- The two decoders of the file. -/
inductive Format where
  | json
  | xml
deriving DecidableEq, Repr

/-- How the destination `v` of `Unmarshal(data, v)` refers to the variable
that is decoded into: `pointer` when `v` is the pointer to that variable,
`ifacePointer` when `v` points to an `interface{}` variable whose value is the
pointer to that variable. -/
inductive Dest where
  | pointer
  | ifacePointer
deriving DecidableEq, Repr

/-- `json.Unmarshal` / `xml.Unmarshal` at a destination variable of type `T`:
from the data, the shape of the destination and the variable's content before
the call, the content after the call and the returned error (`none` is nil). -/
abbrev Unmarshal (T : Type) := Bytes → Dest → T → T × Option GoError

/-- `io.ReadAll`: everything the stream delivers until it ends or fails, and
the failure (`io.EOF` is not reported as an error). -/
def ReadAll (b : Body) : Bytes × Option GoError := (b.data, b.err)

/-- A call that the program makes to a collaborator. -/
inductive Event where
  | httpGet (client : Nat) (url : String)
  | readAll
  | close
  | unmarshal (f : Format) (data : Bytes)
deriving DecidableEq, Repr

/-- What a Go function leaves behind: its first result (or the content of the
variable it writes through a pointer), its `error` result (`none` is nil) and
the calls it made, oldest first. -/
structure Ret (α : Type) where
  val : α
  err : Option GoError
  trace : List Event

/-! ## The client -/

/-- Type `Client` of `client.go`. -/
structure Client where
  address : String
  client : HTTPClient

/-- `NewClient`: the `&http.Client{}` it allocates is `fresh`. -/
def NewClient (address : String) (fresh : HTTPClient) : Client :=
  { address := address, client := fresh }

/-- `NewClientWithHTTP`. -/
def NewClientWithHTTP (address : String) (client : HTTPClient) : Client :=
  { address := address, client := client }

/-- `Client.get`.  `val` is the returned byte slice (`none` is nil).  The
deferred `resp.Body.Close()` runs after the results are computed, so it is the
last event whenever it was registered. -/
def Client.get (c : Client) (url : String) : Ret (Option Bytes) :=
  let target := "http://" ++ c.address ++ url
  match c.client.Get target with
  | .error err => ⟨none, some err, [Event.httpGet c.client.ptr target]⟩
  | .ok resp =>
    if resp.StatusCode ≠ StatusOK then
      ⟨none, some ErrNotOK, [Event.httpGet c.client.ptr target, Event.close]⟩
    else
      let r := ReadAll resp.Body
      ⟨some r.1, r.2, [Event.httpGet c.client.ptr target, Event.readAll, Event.close]⟩

/-- `Client.getJSON`.  `response` is the content of the variable that the
caller's pointer refers to and `val` its content on return.  The decoder is
handed `&response`, the address of the local `interface{}` holding that
pointer, hence `Dest.ifacePointer`. -/
def Client.getJSON {T : Type} (c : Client) (jsonUnmarshal : Unmarshal T)
    (url : String) (response : T) : Ret T :=
  let r := c.get url
  match r.err with
  | some err => ⟨response, some err, r.trace⟩
  | none =>
    let data := r.val.getD []
    let d := jsonUnmarshal data Dest.ifacePointer response
    ⟨d.1, d.2, r.trace ++ [Event.unmarshal Format.json data]⟩

/-- `Client.getXML`, as `Client.getJSON` with `xml.Unmarshal`. -/
def Client.getXML {T : Type} (c : Client) (xmlUnmarshal : Unmarshal T)
    (url : String) (response : T) : Ret T :=
  let r := c.get url
  match r.err with
  | some err => ⟨response, some err, r.trace⟩
  | none =>
    let data := r.val.getD []
    let d := xmlUnmarshal data Dest.ifacePointer response
    ⟨d.1, d.2, r.trace ++ [Event.unmarshal Format.xml data]⟩

/-- `Client.Inventory`: `var inventory []Inventory` starts as the nil slice and
is returned with the error whatever the error is. -/
def Client.Inventory {Inv : Type} (c : Client)
    (jsonUnmarshal : Unmarshal (GoSlice Inv)) : Ret (GoSlice Inv) :=
  let inventory : GoSlice Inv := ZeroValue.zero
  c.getJSON jsonUnmarshal "/inventory.json?deleted=1" inventory

/-- `Client.Production`. -/
def Client.Production {Pro : Type} [ZeroValue Pro] (c : Client)
    (jsonUnmarshal : Unmarshal Pro) : Ret Pro :=
  let production : Pro := ZeroValue.zero
  c.getJSON jsonUnmarshal "/production.json?details=1" production

/-- `Client.Info`. -/
def Client.Info {Inf : Type} [ZeroValue Inf] (c : Client)
    (xmlUnmarshal : Unmarshal Inf) : Ret Inf :=
  let info : Inf := ZeroValue.zero
  c.getXML xmlUnmarshal "/info.xml" info

/-! ## Reading a trace -/

/-- The requests of a trace: client pointer and URL of each `Get`. -/
def requests : List Event → List (Nat × String)
  | [] => []
  | Event.httpGet p u :: es => (p, u) :: requests es
  | _ :: es => requests es

/-- The decoder calls of a trace: format and data of each `Unmarshal`. -/
def decodes : List Event → List (Format × Bytes)
  | [] => []
  | Event.unmarshal f d :: es => (f, d) :: decodes es
  | _ :: es => decodes es

/-- How often the body is closed in a trace. -/
def closes (t : List Event) : Nat := t.count Event.close

/-- How often `io.ReadAll` is applied to the body in a trace. -/
def reads (t : List Event) : Nat := t.count Event.readAll

/-- URL that `get` requests for a path. -/
def urlOf (address path : String) : String := "http://" ++ address ++ path

/-! ## Test doubles

The record types `Inventory`, `Production` and `Info` are declared outside
`client.go`; the operations are embedded for any such types.  The concrete
instances below stand in for them where a statement is evaluated: an inventory
entry, a production record and an info record are each a number. -/

/-- The zero value of a Go integer. -/
instance : ZeroValue Nat := ⟨0⟩

/-- A transport that answers every URL with the same response. -/
def fixedTransport (ptr : Nat) (resp : Response) : HTTPClient :=
  { ptr := ptr, Get := fun _ => Except.ok resp }

/-- A transport that fails on every URL with the same error. -/
def failingTransport (ptr : Nat) (e : GoError) : HTTPClient :=
  { ptr := ptr, Get := fun _ => Except.error e }

/-- A lenient slice decoder, after the way `encoding/json` treats a value that
does not fit its destination: empty input is rejected outright; otherwise
every byte below 128 becomes an element, any other byte is skipped and
reported once decoding is complete. -/
def lenientSlice : Unmarshal (GoSlice Nat) := fun data _ t =>
  if data = [] then (t, some (GoError.other "unexpected end of input"))
  else (some ((data.filter (fun b => b < 128)).map UInt8.toNat),
        if data.all (fun b => b < 128) then none
        else some (GoError.other "cannot unmarshal"))

/-- A lenient record decoder: the record is the number of bytes below 128;
errors as for `lenientSlice`. -/
def lenientRecord : Unmarshal Nat := fun data _ t =>
  if data = [] then (t, some (GoError.other "unexpected end of input"))
  else ((data.filter (fun b => b < 128)).length,
        if data.all (fun b => b < 128) then none
        else some (GoError.other "cannot unmarshal"))

/-- A strict slice decoder: it validates the whole input before it writes. -/
def strictSlice : Unmarshal (GoSlice Nat) := fun data _ t =>
  if data = [] then (t, some (GoError.other "unexpected end of input"))
  else if data.all (fun b => b < 128) then (some (data.map UInt8.toNat), none)
  else (t, some (GoError.other "invalid character"))

/-- A strict record decoder: it validates the whole input before it writes. -/
def strictRecord : Unmarshal Nat := fun data _ t =>
  if data = [] then (t, some (GoError.other "unexpected end of input"))
  else if data.all (fun b => b < 128) then (data.length, none)
  else (t, some (GoError.other "invalid character"))

/-- A gateway that answers 404 with a short body. -/
def gateway404 : Client :=
  NewClientWithHTTP "envoy.local" (fixedTransport 1 ⟨404, ⟨[60, 104, 62], none⟩⟩)

/-- A gateway that answers 200 with a body that the test decoders accept. -/
def gateway200 : Client :=
  NewClientWithHTTP "envoy.local" (fixedTransport 1 ⟨200, ⟨[1, 2, 3], none⟩⟩)

/-- A gateway that answers 200 with a body whose second byte the test decoders
reject. -/
def gatewayBadPayload : Client :=
  NewClientWithHTTP "envoy.local" (fixedTransport 1 ⟨200, ⟨[7, 200], none⟩⟩)

/-- A gateway that answers 200 with a body whose reading fails after the bytes
`1, 2, 3`, themselves a payload that the test decoders accept. -/
def gatewayBrokenBody : Client :=
  NewClientWithHTTP "envoy.local"
    (fixedTransport 1 ⟨200, ⟨[1, 2, 3], some (GoError.other "unexpected EOF")⟩⟩)

/-- A gateway that cannot be reached. -/
def gatewayDown : Client :=
  NewClientWithHTTP "envoy.local"
    (failingTransport 1 (GoError.other "connection refused"))

/-! ## The exits of `get` -/

/-- Exit of `get` when the transport fails: no body is touched. -/
theorem get_of_error (c : Client) (path : String) (e : GoError)
    (h : c.client.Get (urlOf c.address path) = Except.error e) :
    c.get path = ⟨none, some e, [Event.httpGet c.client.ptr (urlOf c.address path)]⟩ := by
  simp only [urlOf] at h
  simp [Client.get, urlOf, h]

/-- Exit of `get` on a status other than `StatusOK`: the body is closed unread. -/
theorem get_of_status (c : Client) (path : String) (resp : Response)
    (h : c.client.Get (urlOf c.address path) = Except.ok resp)
    (hs : resp.StatusCode ≠ StatusOK) :
    c.get path = ⟨none, some ErrNotOK,
      [Event.httpGet c.client.ptr (urlOf c.address path), Event.close]⟩ := by
  simp only [urlOf] at h
  simp [Client.get, urlOf, h, hs]

/-- Exit of `get` on status `StatusOK`: the result of `io.ReadAll`, then the close. -/
theorem get_of_ok (c : Client) (path : String) (resp : Response)
    (h : c.client.Get (urlOf c.address path) = Except.ok resp)
    (hs : resp.StatusCode = StatusOK) :
    c.get path = ⟨some resp.Body.data, resp.Body.err,
      [Event.httpGet c.client.ptr (urlOf c.address path), Event.readAll, Event.close]⟩ := by
  simp only [urlOf] at h
  simp [Client.get, urlOf, h, hs, ReadAll]

/-! ## Traces of the helpers -/

/-- Calls to a decoder are not requests. -/
theorem requests_append_unmarshal (t : List Event) (f : Format) (d : Bytes) :
    requests (t ++ [Event.unmarshal f d]) = requests t := by
  induction t with
  | nil => rfl
  | cons e es ih => cases e <;> simp [requests, ih]

/-- Function `get` makes one request, whatever the transport answers. -/
theorem requests_get (c : Client) (path : String) :
    requests (c.get path).trace = [(c.client.ptr, urlOf c.address path)] := by
  unfold Client.get
  simp only [urlOf]
  split
  · rfl
  · split <;> rfl

/-- Function `getJSON` makes the one request of `get`. -/
theorem requests_getJSON {T : Type} (c : Client) (dec : Unmarshal T) (path : String)
    (t : T) : requests (c.getJSON dec path t).trace = [(c.client.ptr, urlOf c.address path)] := by
  unfold Client.getJSON
  simp only []
  split
  · exact requests_get c path
  · rw [requests_append_unmarshal]; exact requests_get c path

/-- Function `getXML` makes the one request of `get`. -/
theorem requests_getXML {T : Type} (c : Client) (dec : Unmarshal T) (path : String)
    (t : T) : requests (c.getXML dec path t).trace = [(c.client.ptr, urlOf c.address path)] := by
  unfold Client.getXML
  simp only []
  split
  · exact requests_get c path
  · rw [requests_append_unmarshal]; exact requests_get c path

/-- The sentinel leaves `get` only on a response whose status is not 200,
when neither the `Get` nor the reading of the body fails with it. -/
theorem get_sentinel (c : Client) (path : String)
    (hget : c.client.Get (urlOf c.address path) ≠ Except.error ErrNotOK)
    (hread : ∀ resp, c.client.Get (urlOf c.address path) = Except.ok resp →
      resp.Body.err ≠ some ErrNotOK)
    (h : (c.get path).err = some ErrNotOK) :
    ∃ resp, c.client.Get (urlOf c.address path) = Except.ok resp ∧ resp.StatusCode ≠ 200 := by
  cases hg : c.client.Get (urlOf c.address path) with
  | error e =>
    rw [get_of_error c path e hg] at h
    simp only [Option.some.injEq] at h
    exact absurd (h ▸ hg) hget
  | ok resp =>
    by_cases hs : resp.StatusCode = StatusOK
    · rw [get_of_ok c path resp hg hs] at h
      exact absurd h (hread resp hg)
    · exact ⟨resp, rfl, hs⟩

/-- The test decoder `lenientSlice` never reports the sentinel. -/
theorem lenientSlice_no_sentinel (x : Bytes) (v : Dest) (t : GoSlice Nat) :
    (lenientSlice x v t).2 ≠ some ErrNotOK := by
  unfold lenientSlice
  split_ifs <;> simp [ErrNotOK]

/-- The test decoder `lenientRecord` never reports the sentinel. -/
theorem lenientRecord_no_sentinel (x : Bytes) (v : Dest) (t : Nat) :
    (lenientRecord x v t).2 ≠ some ErrNotOK := by
  unfold lenientRecord
  split_ifs <;> simp [ErrNotOK]

/-- Result of `getJSON` by the exit taken: the variable is left as it was when
the transport fails, answers a status other than 200 or the reading of the
body fails; otherwise it holds what the decoder left in it, and the error is
the decoder's. -/
theorem getJSON_result {T : Type} (c : Client) (dec : Unmarshal T) (path : String)
    (t : T) (resp : Response) :
    (∀ e, c.client.Get (urlOf c.address path) = Except.error e →
      (c.getJSON dec path t).val = t) ∧
    (c.client.Get (urlOf c.address path) = Except.ok resp →
      (resp.StatusCode ≠ 200 ∨ resp.Body.err ≠ none → (c.getJSON dec path t).val = t) ∧
      (resp.StatusCode = 200 → resp.Body.err = none →
        (c.getJSON dec path t).val = (dec resp.Body.data Dest.ifacePointer t).1 ∧
        (c.getJSON dec path t).err = (dec resp.Body.data Dest.ifacePointer t).2)) := by
  refine ⟨fun e h => ?_, fun h => ⟨fun hs => ?_, fun hs hb => ?_⟩⟩
  · simp [Client.getJSON, get_of_error c path e h]
  · by_cases h2 : resp.StatusCode = StatusOK
    · have hb : resp.Body.err ≠ none := hs.resolve_left (fun hn => hn h2)
      obtain ⟨e, he⟩ := Option.ne_none_iff_exists'.mp hb
      simp [Client.getJSON, get_of_ok c path resp h h2, he]
    · simp [Client.getJSON, get_of_status c path resp h h2]
  · simp [Client.getJSON, get_of_ok c path resp h hs, hb]

/-- Result of `getXML` by the exit taken, as for `getJSON`. -/
theorem getXML_result {T : Type} (c : Client) (dec : Unmarshal T) (path : String)
    (t : T) (resp : Response) :
    (∀ e, c.client.Get (urlOf c.address path) = Except.error e →
      (c.getXML dec path t).val = t) ∧
    (c.client.Get (urlOf c.address path) = Except.ok resp →
      (resp.StatusCode ≠ 200 ∨ resp.Body.err ≠ none → (c.getXML dec path t).val = t) ∧
      (resp.StatusCode = 200 → resp.Body.err = none →
        (c.getXML dec path t).val = (dec resp.Body.data Dest.ifacePointer t).1 ∧
        (c.getXML dec path t).err = (dec resp.Body.data Dest.ifacePointer t).2)) := by
  refine ⟨fun e h => ?_, fun h => ⟨fun hs => ?_, fun hs hb => ?_⟩⟩
  · simp [Client.getXML, get_of_error c path e h]
  · by_cases h2 : resp.StatusCode = StatusOK
    · have hb : resp.Body.err ≠ none := hs.resolve_left (fun hn => hn h2)
      obtain ⟨e, he⟩ := Option.ne_none_iff_exists'.mp hb
      simp [Client.getXML, get_of_ok c path resp h h2, he]
    · simp [Client.getXML, get_of_status c path resp h h2]
  · simp [Client.getXML, get_of_ok c path resp h hs, hb]

/-! ## Status other than 200 -/

/-- C1: for Inventory, Production and Info, every client, every status other
than 200 and every body: when the transport answers with that status, the
operation returns the zero value of its result type and exactly `ErrNotOK`,
and no decoder is applied. -/
theorem not_ok_status {Inv Pro Inf : Type} [ZeroValue Pro] [ZeroValue Inf]
    (c : Client) (ju : Unmarshal (GoSlice Inv)) (jp : Unmarshal Pro)
    (xi : Unmarshal Inf) (status : Int) (body : Body) (hs : status ≠ 200) :
    (c.client.Get (urlOf c.address "/inventory.json?deleted=1") = Except.ok ⟨status, body⟩ →
      (c.Inventory ju).val = ZeroValue.zero ∧ (c.Inventory ju).err = some ErrNotOK ∧
      decodes (c.Inventory ju).trace = []) ∧
    (c.client.Get (urlOf c.address "/production.json?details=1") = Except.ok ⟨status, body⟩ →
      (c.Production jp).val = ZeroValue.zero ∧ (c.Production jp).err = some ErrNotOK ∧
      decodes (c.Production jp).trace = []) ∧
    (c.client.Get (urlOf c.address "/info.xml") = Except.ok ⟨status, body⟩ →
      (c.Info xi).val = ZeroValue.zero ∧ (c.Info xi).err = some ErrNotOK ∧
      decodes (c.Info xi).trace = []) := by
  have hs2 : (⟨status, body⟩ : Response).StatusCode ≠ StatusOK := by simpa [StatusOK] using hs
  refine ⟨fun h => ?_, fun h => ?_, fun h => ?_⟩
  · simp [Client.Inventory, Client.getJSON, get_of_status c _ _ h hs2, decodes]
  · simp [Client.Production, Client.getJSON, get_of_status c _ _ h hs2, decodes]
  · simp [Client.Info, Client.getXML, get_of_status c _ _ h hs2, decodes]

/-- Witness of C1 at a gateway answering 404 with a non-empty body. -/
theorem not_ok_status_witness :
    ((gateway404.Inventory lenientSlice).val = none ∧
      (gateway404.Inventory lenientSlice).err = some ErrNotOK ∧
      decodes (gateway404.Inventory lenientSlice).trace = []) ∧
    ((gateway404.Production lenientRecord).val = 0 ∧
      (gateway404.Production lenientRecord).err = some ErrNotOK ∧
      decodes (gateway404.Production lenientRecord).trace = []) ∧
    ((gateway404.Info lenientRecord).val = 0 ∧
      (gateway404.Info lenientRecord).err = some ErrNotOK ∧
      decodes (gateway404.Info lenientRecord).trace = []) :=
  have h := not_ok_status gateway404 lenientSlice lenientRecord lenientRecord
    404 ⟨[60, 104, 62], none⟩ (by decide)
  ⟨h.1 rfl, h.2.1 rfl, h.2.2 rfl⟩

/-! ## Status 200 and a body the decoder accepts -/

/-- C2: for Inventory, Production and Info: when the transport answers 200, the
body `b` is read to its end without error and the decoder of the endpoint
(JSON for Inventory and Production, XML for Info) accepts `b`, the operation
returns what that decoder makes of `b` in a zero-valued variable of the result
type, with a nil error.  The decoder is called once, on `b`, with the address
of the local `interface{}`; as the decoder follows the pointer held in that
interface (second hypothesis of each part), its writes land in the variable
that the operation returns. -/
theorem ok_status_decodes {Inv Pro Inf : Type} [ZeroValue Pro] [ZeroValue Inf]
    (c : Client) (ju : Unmarshal (GoSlice Inv)) (jp : Unmarshal Pro)
    (xi : Unmarshal Inf) (b : Bytes) :
    (c.client.Get (urlOf c.address "/inventory.json?deleted=1") = Except.ok ⟨200, ⟨b, none⟩⟩ →
      ju b Dest.ifacePointer ZeroValue.zero = ju b Dest.pointer ZeroValue.zero →
      (ju b Dest.pointer ZeroValue.zero).2 = none →
      (c.Inventory ju).val = (ju b Dest.pointer ZeroValue.zero).1 ∧
      (c.Inventory ju).err = none ∧
      decodes (c.Inventory ju).trace = [(Format.json, b)]) ∧
    (c.client.Get (urlOf c.address "/production.json?details=1") = Except.ok ⟨200, ⟨b, none⟩⟩ →
      jp b Dest.ifacePointer ZeroValue.zero = jp b Dest.pointer ZeroValue.zero →
      (jp b Dest.pointer ZeroValue.zero).2 = none →
      (c.Production jp).val = (jp b Dest.pointer ZeroValue.zero).1 ∧
      (c.Production jp).err = none ∧
      decodes (c.Production jp).trace = [(Format.json, b)]) ∧
    (c.client.Get (urlOf c.address "/info.xml") = Except.ok ⟨200, ⟨b, none⟩⟩ →
      xi b Dest.ifacePointer ZeroValue.zero = xi b Dest.pointer ZeroValue.zero →
      (xi b Dest.pointer ZeroValue.zero).2 = none →
      (c.Info xi).val = (xi b Dest.pointer ZeroValue.zero).1 ∧
      (c.Info xi).err = none ∧
      decodes (c.Info xi).trace = [(Format.xml, b)]) := by
  refine ⟨fun h hf ha => ?_, fun h hf ha => ?_, fun h hf ha => ?_⟩
  · have hg := get_of_ok c _ _ h rfl
    simp only [] at hg
    simp [Client.Inventory, Client.getJSON, hg, hf, ha, decodes]
  · have hg := get_of_ok c _ _ h rfl
    simp only [] at hg
    simp [Client.Production, Client.getJSON, hg, hf, ha, decodes]
  · have hg := get_of_ok c _ _ h rfl
    simp only [] at hg
    simp [Client.Info, Client.getXML, hg, hf, ha, decodes]

/-- Witness of C2 at a gateway answering 200 with the bytes `1, 2, 3`. -/
theorem ok_status_decodes_witness :
    ((gateway200.Inventory lenientSlice).val = some [1, 2, 3] ∧
      (gateway200.Inventory lenientSlice).err = none ∧
      decodes (gateway200.Inventory lenientSlice).trace = [(Format.json, [1, 2, 3])]) ∧
    ((gateway200.Production lenientRecord).val = 3 ∧
      (gateway200.Production lenientRecord).err = none ∧
      decodes (gateway200.Production lenientRecord).trace = [(Format.json, [1, 2, 3])]) ∧
    ((gateway200.Info strictRecord).val = 3 ∧
      (gateway200.Info strictRecord).err = none ∧
      decodes (gateway200.Info strictRecord).trace = [(Format.xml, [1, 2, 3])]) :=
  have h := ok_status_decodes gateway200 lenientSlice lenientRecord strictRecord [1, 2, 3]
  ⟨h.1 rfl rfl (by decide), h.2.1 rfl rfl (by decide), h.2.2 rfl rfl (by decide)⟩

/-! ## Transport failure -/

/-- C4: for Inventory, Production and Info and every error `e`: when the `Get`
of the transport fails with `e`, the operation returns the zero value of its
result type and exactly `e`, and no decoder is applied. -/
theorem transport_failure {Inv Pro Inf : Type} [ZeroValue Pro] [ZeroValue Inf]
    (c : Client) (ju : Unmarshal (GoSlice Inv)) (jp : Unmarshal Pro)
    (xi : Unmarshal Inf) (e : GoError) :
    (c.client.Get (urlOf c.address "/inventory.json?deleted=1") = Except.error e →
      (c.Inventory ju).val = ZeroValue.zero ∧ (c.Inventory ju).err = some e ∧
      decodes (c.Inventory ju).trace = []) ∧
    (c.client.Get (urlOf c.address "/production.json?details=1") = Except.error e →
      (c.Production jp).val = ZeroValue.zero ∧ (c.Production jp).err = some e ∧
      decodes (c.Production jp).trace = []) ∧
    (c.client.Get (urlOf c.address "/info.xml") = Except.error e →
      (c.Info xi).val = ZeroValue.zero ∧ (c.Info xi).err = some e ∧
      decodes (c.Info xi).trace = []) := by
  refine ⟨fun h => ?_, fun h => ?_, fun h => ?_⟩
  · simp [Client.Inventory, Client.getJSON, get_of_error c _ _ h, decodes]
  · simp [Client.Production, Client.getJSON, get_of_error c _ _ h, decodes]
  · simp [Client.Info, Client.getXML, get_of_error c _ _ h, decodes]

/-- Witness of C4 at a gateway that refuses the connection. -/
theorem transport_failure_witness :
    ((gatewayDown.Inventory lenientSlice).val = none ∧
      (gatewayDown.Inventory lenientSlice).err = some (GoError.other "connection refused") ∧
      decodes (gatewayDown.Inventory lenientSlice).trace = []) ∧
    ((gatewayDown.Production lenientRecord).val = 0 ∧
      (gatewayDown.Production lenientRecord).err = some (GoError.other "connection refused") ∧
      decodes (gatewayDown.Production lenientRecord).trace = []) ∧
    ((gatewayDown.Info lenientRecord).val = 0 ∧
      (gatewayDown.Info lenientRecord).err = some (GoError.other "connection refused") ∧
      decodes (gatewayDown.Info lenientRecord).trace = []) :=
  have h := transport_failure gatewayDown lenientSlice lenientRecord lenientRecord
    (GoError.other "connection refused")
  ⟨h.1 rfl, h.2.1 rfl, h.2.2 rfl⟩

/-! ## Decode failure -/

/-- C5: for Inventory, Production and Info: when the transport answers 200
with a fully read body `b` and the decoder of the endpoint, called as the
operation calls it, rejects `b` with error `d`, the operation returns exactly
`d` as its error; given that the decoder never produces `ErrNotOK`, that error
is not `ErrNotOK`. -/
theorem decode_failure {Inv Pro Inf : Type} [ZeroValue Pro] [ZeroValue Inf]
    (c : Client) (ju : Unmarshal (GoSlice Inv)) (jp : Unmarshal Pro)
    (xi : Unmarshal Inf) (b : Bytes) (d : GoError) :
    (c.client.Get (urlOf c.address "/inventory.json?deleted=1") = Except.ok ⟨200, ⟨b, none⟩⟩ →
      (ju b Dest.ifacePointer ZeroValue.zero).2 = some d →
      (c.Inventory ju).err = some d ∧
      ((∀ x v t, (ju x v t).2 ≠ some ErrNotOK) → (c.Inventory ju).err ≠ some ErrNotOK)) ∧
    (c.client.Get (urlOf c.address "/production.json?details=1") = Except.ok ⟨200, ⟨b, none⟩⟩ →
      (jp b Dest.ifacePointer ZeroValue.zero).2 = some d →
      (c.Production jp).err = some d ∧
      ((∀ x v t, (jp x v t).2 ≠ some ErrNotOK) → (c.Production jp).err ≠ some ErrNotOK)) ∧
    (c.client.Get (urlOf c.address "/info.xml") = Except.ok ⟨200, ⟨b, none⟩⟩ →
      (xi b Dest.ifacePointer ZeroValue.zero).2 = some d →
      (c.Info xi).err = some d ∧
      ((∀ x v t, (xi x v t).2 ≠ some ErrNotOK) → (c.Info xi).err ≠ some ErrNotOK)) := by
  refine ⟨fun h hd => ?_, fun h hd => ?_, fun h hd => ?_⟩
  · have hg := get_of_ok c _ _ h rfl
    simp only [] at hg
    have he : (c.Inventory ju).err = some d := by
      simp [Client.Inventory, Client.getJSON, hg, hd]
    exact ⟨he, fun hn => by rw [he, ← hd]; exact hn _ _ _⟩
  · have hg := get_of_ok c _ _ h rfl
    simp only [] at hg
    have he : (c.Production jp).err = some d := by
      simp [Client.Production, Client.getJSON, hg, hd]
    exact ⟨he, fun hn => by rw [he, ← hd]; exact hn _ _ _⟩
  · have hg := get_of_ok c _ _ h rfl
    simp only [] at hg
    have he : (c.Info xi).err = some d := by
      simp [Client.Info, Client.getXML, hg, hd]
    exact ⟨he, fun hn => by rw [he, ← hd]; exact hn _ _ _⟩

/-- Witness of C5 at a gateway answering 200 with a payload whose second byte
the test decoders reject. -/
theorem decode_failure_witness :
    ((gatewayBadPayload.Inventory lenientSlice).err = some (GoError.other "cannot unmarshal") ∧
      (gatewayBadPayload.Inventory lenientSlice).err ≠ some ErrNotOK) ∧
    ((gatewayBadPayload.Production lenientRecord).err = some (GoError.other "cannot unmarshal") ∧
      (gatewayBadPayload.Production lenientRecord).err ≠ some ErrNotOK) ∧
    ((gatewayBadPayload.Info lenientRecord).err = some (GoError.other "cannot unmarshal") ∧
      (gatewayBadPayload.Info lenientRecord).err ≠ some ErrNotOK) :=
  have h := decode_failure gatewayBadPayload lenientSlice lenientRecord lenientRecord
    [7, 200] (GoError.other "cannot unmarshal")
  ⟨⟨(h.1 rfl (by decide)).1, (h.1 rfl (by decide)).2 lenientSlice_no_sentinel⟩,
   ⟨(h.2.1 rfl (by decide)).1, (h.2.1 rfl (by decide)).2 lenientRecord_no_sentinel⟩,
   ⟨(h.2.2 rfl (by decide)).1, (h.2.2 rfl (by decide)).2 lenientRecord_no_sentinel⟩⟩

/-! ## The request -/

/-- C3: for every client and every transport, whatever the transport then
answers, one call of Inventory, Production or Info makes exactly one `Get`, on
the transport of the client, for the URL `"http://" ++ address ++ path` with
the path of the operation; two clients built by `NewClientWithHTTP` with the
same address and different transports request the same URL, each on its own
transport. -/
theorem one_request {Inv Pro Inf : Type} [ZeroValue Pro] [ZeroValue Inf]
    (c : Client) (ju : Unmarshal (GoSlice Inv)) (jp : Unmarshal Pro)
    (xi : Unmarshal Inf) (a : String) (t₁ t₂ : HTTPClient) :
    (requests (c.Inventory ju).trace =
        [(c.client.ptr, "http://" ++ c.address ++ "/inventory.json?deleted=1")] ∧
      requests (c.Production jp).trace =
        [(c.client.ptr, "http://" ++ c.address ++ "/production.json?details=1")] ∧
      requests (c.Info xi).trace =
        [(c.client.ptr, "http://" ++ c.address ++ "/info.xml")]) ∧
    (requests ((NewClientWithHTTP a t₁).Inventory ju).trace =
        [(t₁.ptr, "http://" ++ a ++ "/inventory.json?deleted=1")] ∧
      requests ((NewClientWithHTTP a t₂).Inventory ju).trace =
        [(t₂.ptr, "http://" ++ a ++ "/inventory.json?deleted=1")] ∧
      requests ((NewClientWithHTTP a t₁).Production jp).trace =
        [(t₁.ptr, "http://" ++ a ++ "/production.json?details=1")] ∧
      requests ((NewClientWithHTTP a t₂).Production jp).trace =
        [(t₂.ptr, "http://" ++ a ++ "/production.json?details=1")] ∧
      requests ((NewClientWithHTTP a t₁).Info xi).trace =
        [(t₁.ptr, "http://" ++ a ++ "/info.xml")] ∧
      requests ((NewClientWithHTTP a t₂).Info xi).trace =
        [(t₂.ptr, "http://" ++ a ++ "/info.xml")]) :=
  ⟨⟨requests_getJSON c ju _ _, requests_getJSON c jp _ _, requests_getXML c xi _ _⟩,
   requests_getJSON _ ju _ _, requests_getJSON _ ju _ _,
   requests_getJSON _ jp _ _, requests_getJSON _ jp _ _,
   requests_getXML _ xi _ _, requests_getXML _ xi _ _⟩

/-! ## The response body -/

/-- C7: whenever the transport returns a response, whatever its status and
whether or not the reading of the body fails, `get` closes the body exactly
once, as its last action; when the transport fails, `get` closes nothing. -/
theorem body_closed_once (c : Client) (path : String) :
    (∀ resp, c.client.Get (urlOf c.address path) = Except.ok resp →
      closes (c.get path).trace = 1 ∧ (c.get path).trace.getLast? = some Event.close) ∧
    (∀ e, c.client.Get (urlOf c.address path) = Except.error e →
      closes (c.get path).trace = 0) := by
  refine ⟨fun resp h => ?_, fun e h => ?_⟩
  · by_cases hs : resp.StatusCode = StatusOK
    · rw [get_of_ok c path resp h hs]; simp [closes]
    · rw [get_of_status c path resp h hs]; simp [closes]
  · rw [get_of_error c path e h]; simp [closes]

/-- Witness of C7 on the three exits with a response and on the exit without. -/
theorem body_closed_once_witness :
    (closes (gateway200.get "/info.xml").trace = 1 ∧
      (gateway200.get "/info.xml").trace.getLast? = some Event.close) ∧
    (closes (gateway404.get "/info.xml").trace = 1 ∧
      (gateway404.get "/info.xml").trace.getLast? = some Event.close) ∧
    (closes (gatewayBrokenBody.get "/info.xml").trace = 1 ∧
      (gatewayBrokenBody.get "/info.xml").trace.getLast? = some Event.close) ∧
    closes (gatewayDown.get "/info.xml").trace = 0 :=
  ⟨(body_closed_once gateway200 "/info.xml").1 _ rfl,
   (body_closed_once gateway404 "/info.xml").1 _ rfl,
   (body_closed_once gatewayBrokenBody "/info.xml").1 _ rfl,
   (body_closed_once gatewayDown "/info.xml").2 _ rfl⟩

/-- C8, refuted as stated: the gateway answers 404 with the three-byte body
`60, 104, 62`, and `get` returns after the request and the close, without
having read any of the body. -/
theorem status_404_body_unread :
    gateway404.client.Get (urlOf gateway404.address "/info.xml") =
      Except.ok ⟨404, ⟨[60, 104, 62], none⟩⟩ ∧
    (gateway404.get "/info.xml").trace =
      [Event.httpGet 1 "http://envoy.local/info.xml", Event.close] ∧
    reads (gateway404.get "/info.xml").trace = 0 :=
  ⟨rfl, by decide, by decide⟩

/-- C8, amended: for every response with status 200, `get` applies
`io.ReadAll` to the body exactly once, between the request and the close, and
returns what it read and how the reading ended, so the body is read to its end
unless a read fails; for every response with another status, `get` returns
without reading the body, which it only closes. -/
theorem body_read_iff_ok (c : Client) (path : String) (resp : Response)
    (h : c.client.Get (urlOf c.address path) = Except.ok resp) :
    (resp.StatusCode = 200 →
      (c.get path).trace =
        [Event.httpGet c.client.ptr (urlOf c.address path), Event.readAll, Event.close] ∧
      reads (c.get path).trace = 1 ∧
      (c.get path).val = some resp.Body.data ∧ (c.get path).err = resp.Body.err) ∧
    (resp.StatusCode ≠ 200 →
      (c.get path).trace =
        [Event.httpGet c.client.ptr (urlOf c.address path), Event.close] ∧
      reads (c.get path).trace = 0) := by
  refine ⟨fun hs => ?_, fun hs => ?_⟩
  · rw [get_of_ok c path resp h hs]; simp [reads]
  · rw [get_of_status c path resp h hs]; simp [reads]

/-- Witness of the amended C8 at a gateway answering 200 and at one answering
404. -/
theorem body_read_iff_ok_witness :
    ((gateway200.get "/info.xml").trace =
        [Event.httpGet 1 "http://envoy.local/info.xml", Event.readAll, Event.close] ∧
      reads (gateway200.get "/info.xml").trace = 1 ∧
      (gateway200.get "/info.xml").val = some [1, 2, 3] ∧
      (gateway200.get "/info.xml").err = none) ∧
    ((gateway404.get "/info.xml").trace =
        [Event.httpGet 1 "http://envoy.local/info.xml", Event.close] ∧
      reads (gateway404.get "/info.xml").trace = 0) :=
  ⟨(body_read_iff_ok gateway200 "/info.xml" ⟨200, ⟨[1, 2, 3], none⟩⟩ rfl).1 rfl,
   (body_read_iff_ok gateway404 "/info.xml" ⟨404, ⟨[60, 104, 62], none⟩⟩ rfl).2 (by decide)⟩

/-! ## Telling the errors apart -/

/-- C9: for every transport and every decoder whose own errors are never
`ErrNotOK` (the transport's: the failure of a `Get` and the failure of reading
a body it returned; the decoder's: any error it reports): if Inventory,
Production or Info returns `ErrNotOK`, the transport returned a response whose
status is not 200. -/
theorem sentinel_means_status {Inv Pro Inf : Type} [ZeroValue Pro] [ZeroValue Inf]
    (c : Client) (ju : Unmarshal (GoSlice Inv)) (jp : Unmarshal Pro)
    (xi : Unmarshal Inf)
    (hget : ∀ u, c.client.Get u ≠ Except.error ErrNotOK)
    (hread : ∀ u resp, c.client.Get u = Except.ok resp → resp.Body.err ≠ some ErrNotOK)
    (hju : ∀ x v t, (ju x v t).2 ≠ some ErrNotOK)
    (hjp : ∀ x v t, (jp x v t).2 ≠ some ErrNotOK)
    (hxi : ∀ x v t, (xi x v t).2 ≠ some ErrNotOK) :
    ((c.Inventory ju).err = some ErrNotOK →
      ∃ resp, c.client.Get (urlOf c.address "/inventory.json?deleted=1") = Except.ok resp ∧
        resp.StatusCode ≠ 200) ∧
    ((c.Production jp).err = some ErrNotOK →
      ∃ resp, c.client.Get (urlOf c.address "/production.json?details=1") = Except.ok resp ∧
        resp.StatusCode ≠ 200) ∧
    ((c.Info xi).err = some ErrNotOK →
      ∃ resp, c.client.Get (urlOf c.address "/info.xml") = Except.ok resp ∧
        resp.StatusCode ≠ 200) := by
  refine ⟨fun h => ?_, fun h => ?_, fun h => ?_⟩
  · apply get_sentinel c _ (hget _) (hread _)
    simp only [Client.Inventory, Client.getJSON] at h
    split at h
    · rename_i e he; simp only [Option.some.injEq] at h; rw [he, h]
    · exact absurd h (hju _ _ _)
  · apply get_sentinel c _ (hget _) (hread _)
    simp only [Client.Production, Client.getJSON] at h
    split at h
    · rename_i e he; simp only [Option.some.injEq] at h; rw [he, h]
    · exact absurd h (hjp _ _ _)
  · apply get_sentinel c _ (hget _) (hread _)
    simp only [Client.Info, Client.getXML] at h
    split at h
    · rename_i e he; simp only [Option.some.injEq] at h; rw [he, h]
    · exact absurd h (hxi _ _ _)

/-- Witness of C9 at a gateway answering 404. -/
theorem sentinel_means_status_witness :
    (∃ resp, gateway404.client.Get (urlOf gateway404.address "/inventory.json?deleted=1") =
        Except.ok resp ∧ resp.StatusCode ≠ 200) ∧
    (∃ resp, gateway404.client.Get (urlOf gateway404.address "/production.json?details=1") =
        Except.ok resp ∧ resp.StatusCode ≠ 200) ∧
    (∃ resp, gateway404.client.Get (urlOf gateway404.address "/info.xml") =
        Except.ok resp ∧ resp.StatusCode ≠ 200) :=
  have h := sentinel_means_status gateway404 lenientSlice lenientRecord lenientRecord
    (fun _ hu => Except.noConfusion hu)
    (fun _ _ hu => by cases hu; decide)
    lenientSlice_no_sentinel lenientRecord_no_sentinel lenientRecord_no_sentinel
  ⟨h.1 rfl, h.2.1 rfl, h.2.2 rfl⟩

/-! ## Failure while reading the body -/

/-- C10: for Inventory, Production and Info: when the transport answers 200
and the reading of the body fails with `e` after the bytes `read` were
delivered, `get` returns `read` together with `e`, and the operation returns
the zero value of its result type and exactly `e`, without applying a decoder,
whatever `read` is. -/
theorem read_failure {Inv Pro Inf : Type} [ZeroValue Pro] [ZeroValue Inf]
    (c : Client) (ju : Unmarshal (GoSlice Inv)) (jp : Unmarshal Pro)
    (xi : Unmarshal Inf) (read : Bytes) (e : GoError) :
    (c.client.Get (urlOf c.address "/inventory.json?deleted=1") =
        Except.ok ⟨200, ⟨read, some e⟩⟩ →
      (c.get "/inventory.json?deleted=1").val = some read ∧
      (c.get "/inventory.json?deleted=1").err = some e ∧
      (c.Inventory ju).val = ZeroValue.zero ∧ (c.Inventory ju).err = some e ∧
      decodes (c.Inventory ju).trace = []) ∧
    (c.client.Get (urlOf c.address "/production.json?details=1") =
        Except.ok ⟨200, ⟨read, some e⟩⟩ →
      (c.get "/production.json?details=1").val = some read ∧
      (c.get "/production.json?details=1").err = some e ∧
      (c.Production jp).val = ZeroValue.zero ∧ (c.Production jp).err = some e ∧
      decodes (c.Production jp).trace = []) ∧
    (c.client.Get (urlOf c.address "/info.xml") = Except.ok ⟨200, ⟨read, some e⟩⟩ →
      (c.get "/info.xml").val = some read ∧
      (c.get "/info.xml").err = some e ∧
      (c.Info xi).val = ZeroValue.zero ∧ (c.Info xi).err = some e ∧
      decodes (c.Info xi).trace = []) := by
  refine ⟨fun h => ?_, fun h => ?_, fun h => ?_⟩
  · have hg := get_of_ok c _ _ h rfl
    simp only [] at hg
    simp [Client.Inventory, Client.getJSON, hg, decodes]
  · have hg := get_of_ok c _ _ h rfl
    simp only [] at hg
    simp [Client.Production, Client.getJSON, hg, decodes]
  · have hg := get_of_ok c _ _ h rfl
    simp only [] at hg
    simp [Client.Info, Client.getXML, hg, decodes]

/-- Witness of C10: the reading fails after the bytes `1, 2, 3`, which the test
decoders would accept. -/
theorem read_failure_witness :
    (lenientSlice [1, 2, 3] Dest.ifacePointer none).2 = none ∧
    ((gatewayBrokenBody.get "/inventory.json?deleted=1").val = some [1, 2, 3] ∧
      (gatewayBrokenBody.get "/inventory.json?deleted=1").err =
        some (GoError.other "unexpected EOF") ∧
      (gatewayBrokenBody.Inventory lenientSlice).val = none ∧
      (gatewayBrokenBody.Inventory lenientSlice).err = some (GoError.other "unexpected EOF") ∧
      decodes (gatewayBrokenBody.Inventory lenientSlice).trace = []) ∧
    ((gatewayBrokenBody.get "/production.json?details=1").val = some [1, 2, 3] ∧
      (gatewayBrokenBody.get "/production.json?details=1").err =
        some (GoError.other "unexpected EOF") ∧
      (gatewayBrokenBody.Production lenientRecord).val = 0 ∧
      (gatewayBrokenBody.Production lenientRecord).err = some (GoError.other "unexpected EOF") ∧
      decodes (gatewayBrokenBody.Production lenientRecord).trace = []) ∧
    ((gatewayBrokenBody.get "/info.xml").val = some [1, 2, 3] ∧
      (gatewayBrokenBody.get "/info.xml").err = some (GoError.other "unexpected EOF") ∧
      (gatewayBrokenBody.Info lenientRecord).val = 0 ∧
      (gatewayBrokenBody.Info lenientRecord).err = some (GoError.other "unexpected EOF") ∧
      decodes (gatewayBrokenBody.Info lenientRecord).trace = []) :=
  have h := read_failure gatewayBrokenBody lenientSlice lenientRecord lenientRecord
    [1, 2, 3] (GoError.other "unexpected EOF")
  ⟨by decide, h.1 rfl, h.2.1 rfl, h.2.2 rfl⟩

/-! ## The result that comes with an error -/

/-- C6, refuted as stated: the gateway answers 200 with the bytes `7, 200`; the
decoder writes the element 7 into its destination before it reports the byte
200; Inventory returns the error together with the one-element slice, and
Production the error together with the record 1, neither the zero value. -/
theorem partial_result_with_error :
    gatewayBadPayload.client.Get (urlOf gatewayBadPayload.address "/inventory.json?deleted=1") =
      Except.ok ⟨200, ⟨[7, 200], none⟩⟩ ∧
    lenientSlice [7, 200] Dest.ifacePointer none =
      (some [7], some (GoError.other "cannot unmarshal")) ∧
    (gatewayBadPayload.Inventory lenientSlice).err = some (GoError.other "cannot unmarshal") ∧
    (gatewayBadPayload.Inventory lenientSlice).val = some [7] ∧
    (gatewayBadPayload.Inventory lenientSlice).val ≠ ZeroValue.zero ∧
    (gatewayBadPayload.Production lenientRecord).err = some (GoError.other "cannot unmarshal") ∧
    (gatewayBadPayload.Production lenientRecord).val = 1 ∧
    (gatewayBadPayload.Production lenientRecord).val ≠ ZeroValue.zero :=
  ⟨rfl, by decide, by decide, by decide, by decide, by decide, by decide, by decide⟩

/-- C6, amended: for Inventory, Production and Info: when the transport fails,
answers a status other than 200 or the reading of the body fails, the result
is the zero value of the result type; when the body was read and handed to the
decoder, the result is what the decoder left in the variable of the operation,
which started as the zero value, and the error is the decoder's: with a decode
error comes the zero value if the decoder wrote nothing, and what it wrote
otherwise. -/
theorem failure_result {Inv Pro Inf : Type} [ZeroValue Pro] [ZeroValue Inf]
    (c : Client) (ju : Unmarshal (GoSlice Inv)) (jp : Unmarshal Pro)
    (xi : Unmarshal Inf) (resp : Response) :
    ((∀ e, c.client.Get (urlOf c.address "/inventory.json?deleted=1") = Except.error e →
        (c.Inventory ju).val = ZeroValue.zero) ∧
      (c.client.Get (urlOf c.address "/inventory.json?deleted=1") = Except.ok resp →
        (resp.StatusCode ≠ 200 ∨ resp.Body.err ≠ none →
          (c.Inventory ju).val = ZeroValue.zero) ∧
        (resp.StatusCode = 200 → resp.Body.err = none →
          (c.Inventory ju).val = (ju resp.Body.data Dest.ifacePointer ZeroValue.zero).1 ∧
          (c.Inventory ju).err = (ju resp.Body.data Dest.ifacePointer ZeroValue.zero).2))) ∧
    ((∀ e, c.client.Get (urlOf c.address "/production.json?details=1") = Except.error e →
        (c.Production jp).val = ZeroValue.zero) ∧
      (c.client.Get (urlOf c.address "/production.json?details=1") = Except.ok resp →
        (resp.StatusCode ≠ 200 ∨ resp.Body.err ≠ none →
          (c.Production jp).val = ZeroValue.zero) ∧
        (resp.StatusCode = 200 → resp.Body.err = none →
          (c.Production jp).val = (jp resp.Body.data Dest.ifacePointer ZeroValue.zero).1 ∧
          (c.Production jp).err = (jp resp.Body.data Dest.ifacePointer ZeroValue.zero).2))) ∧
    ((∀ e, c.client.Get (urlOf c.address "/info.xml") = Except.error e →
        (c.Info xi).val = ZeroValue.zero) ∧
      (c.client.Get (urlOf c.address "/info.xml") = Except.ok resp →
        (resp.StatusCode ≠ 200 ∨ resp.Body.err ≠ none →
          (c.Info xi).val = ZeroValue.zero) ∧
        (resp.StatusCode = 200 → resp.Body.err = none →
          (c.Info xi).val = (xi resp.Body.data Dest.ifacePointer ZeroValue.zero).1 ∧
          (c.Info xi).err = (xi resp.Body.data Dest.ifacePointer ZeroValue.zero).2))) :=
  ⟨getJSON_result c ju _ _ resp, getJSON_result c jp _ _ resp, getXML_result c xi _ _ resp⟩

/-- Witness of the amended C6: zero results at an unreachable gateway, at one
answering 404 and at one whose body breaks off; at the gateway with the bad
payload, the zero value from the strict decoders, which write nothing before
they fail. -/
theorem failure_result_witness :
    (gatewayDown.Inventory lenientSlice).val = none ∧
    (gateway404.Production lenientRecord).val = 0 ∧
    (gatewayBrokenBody.Info lenientRecord).val = 0 ∧
    ((gatewayBadPayload.Inventory strictSlice).val = none ∧
      (gatewayBadPayload.Inventory strictSlice).err = some (GoError.other "invalid character")) ∧
    ((gatewayBadPayload.Production strictRecord).val = 0 ∧
      (gatewayBadPayload.Production strictRecord).err =
        some (GoError.other "invalid character")) ∧
    ((gatewayBadPayload.Info strictRecord).val = 0 ∧
      (gatewayBadPayload.Info strictRecord).err = some (GoError.other "invalid character")) :=
  have bad := failure_result gatewayBadPayload strictSlice strictRecord strictRecord
    ⟨200, ⟨[7, 200], none⟩⟩
  ⟨(failure_result gatewayDown lenientSlice lenientRecord lenientRecord
      ⟨200, ⟨[], none⟩⟩).1.1 _ rfl,
   ((failure_result gateway404 lenientSlice lenientRecord lenientRecord
      ⟨404, ⟨[60, 104, 62], none⟩⟩).2.1.2 rfl).1 (Or.inl (by decide)),
   ((failure_result gatewayBrokenBody lenientSlice lenientRecord lenientRecord
      ⟨200, ⟨[1, 2, 3], some (GoError.other "unexpected EOF")⟩⟩).2.2.2 rfl).1
      (Or.inr (by decide)),
   (bad.1.2 rfl).2 rfl rfl, (bad.2.1.2 rfl).2 rfl rfl, (bad.2.2.2 rfl).2 rfl rfl⟩

end Envoy
